import Mathlib

/-!
Shallow embedding of `ilias-fuse.py` (kit-ilias-fuse): the content cache,
the session's redirect/re-login logic, the lazily refreshed node tree,
file-node construction, size parsing, and path resolution.

Times are modelled as rationals (Python floats used only for time stamps and
exact divisions by powers of two), payloads as lists of bytes, file
identities as natural numbers.
-/

/-- Model of `Cache.CashedFile`: a cached payload bound to a file identity,
stamped with the insertion time (`time.time()` at construction). -/
structure CashedFile where
  file : Nat
  data : List Nat
  time : ℚ
deriving DecidableEq, Repr

/-- Model of a `Cache` instance's own fields: `capacity` (megabytes) and
`cache_timeout` (seconds).  The entry list itself is the class attribute
`Cache.cache` (line 96 of the source, `cache = list()`), shared by all
instances; it is therefore modelled as a separate state value `CacheState`
threaded through the methods, not as a field of this structure. -/
structure Cache where
  capacity : ℚ
  cache_timeout : ℚ
deriving DecidableEq, Repr

/-- The shared class-level entry list `Cache.cache`. -/
abbrev CacheState := List CashedFile

/-- Model of `Cache.size`: the sum of the payload lengths. -/
def totalBytes : CacheState → Nat
  | [] => 0
  | c :: rest => c.data.length + totalBytes rest

/-- Model of `Cache.size`: total payload bytes divided by 1024 twice
(megabytes).  Division of an integer float by powers of two is exact, so the
rational value is faithful. -/
def Cache.size (st : CacheState) : ℚ :=
  (totalBytes st : ℚ) / 1024 / 1024

/-- Model of `list.remove(c)` under `CashedFile.__eq__`, which compares the
file identity: removes the first entry whose `file` matches. -/
def listRemove : CacheState → Nat → CacheState
  | [], _ => []
  | c :: rest, f => if c.file = f then rest else c :: listRemove rest f

/-- Model of the eviction loop in `Cache.put`:
`while self.size() > self.capacity and len(self.cache) > 1: self.cache.pop(0)`. -/
def evictLoop (capacity : ℚ) : CacheState → CacheState
  | [] => []
  | c :: rest =>
      if Cache.size (c :: rest) > capacity ∧ rest ≠ [] then evictLoop capacity rest
      else c :: rest

/-- Model of `Cache.put`: build the new `CashedFile`, remove a previous entry
with the same file identity if present, append the new entry, then run the
eviction loop with this instance's `capacity` over the shared list. -/
def Cache.put (self : Cache) (file : Nat) (data : List Nat) (now : ℚ)
    (st : CacheState) : CacheState :=
  let c : CashedFile := ⟨file, data, now⟩
  let st1 := if st.any (fun e => e.file = file) then listRemove st file else st
  evictLoop self.capacity (st1 ++ [c])

/-- Model of `self.cache.pop(self.cache.index(file))`: find the first entry
with the given file identity, returning it together with the list with that
entry removed (order of the remaining entries preserved). -/
def findEntry : CacheState → Nat → Option (CashedFile × CacheState)
  | [], _ => none
  | c :: rest, f =>
      if c.file = f then some (c, rest)
      else match findEntry rest f with
           | none => none
           | some (o, rest2) => some (o, c :: rest2)

/-- Model of `Cache.get`: pop the first matching entry; if its age exceeds
this instance's `cache_timeout` return `None` (the popped entry is NOT put
back), otherwise re-append it at the end and return its data. -/
def Cache.get (self : Cache) (file : Nat) (now : ℚ) (st : CacheState) :
    Option (List Nat) × CacheState :=
  match findEntry st file with
  | none => (none, st)
  | some (obj, st1) =>
      if now - obj.time > self.cache_timeout then (none, st1)
      else (some obj.data, st1 ++ [obj])

/-! ## Cache lemmas -/

lemma evictLoop_post (capacity : ℚ) :
    ∀ l : CacheState, l ≠ [] →
      Cache.size (evictLoop capacity l) ≤ capacity ∨ (evictLoop capacity l).length = 1 := by
  intro l
  induction l with
  | nil => intro h; exact absurd rfl h
  | cons c rest ih =>
      intro _
      rw [evictLoop]
      by_cases hcond : Cache.size (c :: rest) > capacity ∧ rest ≠ []
      · rw [if_pos hcond]
        exact ih hcond.2
      · rw [if_neg hcond]
        rcases not_and_or.mp hcond with hsz | hne
        · exact Or.inl (le_of_not_lt hsz)
        · right
          have : rest = [] := not_not.mp hne
          simp [this]

lemma evict_keeps_last (capacity : ℚ) (c : CashedFile) :
    ∀ st : CacheState, (∀ e ∈ st, e.file ≠ c.file) →
      ∃ st2, evictLoop capacity (st ++ [c]) = st2 ++ [c] ∧ ∀ e ∈ st2, e.file ≠ c.file := by
  intro st
  induction st with
  | nil =>
      intro _
      refine ⟨[], ?_, by simp⟩
      simp [evictLoop]
  | cons a rest ih =>
      intro h
      have hrest : ∀ e ∈ rest, e.file ≠ c.file := fun e he => h e (List.mem_cons_of_mem a he)
      rw [List.cons_append, evictLoop]
      by_cases hcond : Cache.size (a :: (rest ++ [c])) > capacity ∧ rest ++ [c] ≠ []
      · rw [if_pos hcond]
        exact ih hrest
      · rw [if_neg hcond]
        refine ⟨a :: rest, by simp, ?_⟩
        intro e he
        exact h e he

lemma findEntry_last (f : Nat) (c : CashedFile) (hc : c.file = f) :
    ∀ st : CacheState, (∀ e ∈ st, e.file ≠ f) →
      findEntry (st ++ [c]) f = some (c, st) := by
  intro st
  induction st with
  | nil => intro _; simp [findEntry, hc]
  | cons a rest ih =>
      intro h
      have ha : a.file ≠ f := h a (List.mem_cons_self a rest)
      have hrest : ∀ e ∈ rest, e.file ≠ f := fun e he => h e (List.mem_cons_of_mem a he)
      rw [List.cons_append, findEntry, if_neg ha, ih hrest]

lemma findEntry_length (f : Nat) :
    ∀ st obj rest, findEntry st f = some (obj, rest) → st.length = rest.length + 1 := by
  intro st
  induction st with
  | nil => intro obj rest h; simp [findEntry] at h
  | cons a tail ih =>
      intro obj rest h
      rw [findEntry] at h
      by_cases ha : a.file = f
      · rw [if_pos ha] at h
        cases h
        simp
      · rw [if_neg ha] at h
        cases htail : findEntry tail f with
        | none => rw [htail] at h; cases h
        | some p =>
            obtain ⟨o, rest2⟩ := p
            rw [htail] at h
            cases h
            simp [ih _ _ htail]

lemma put_no_prior (self : Cache) (f : Nat) (d : List Nat) (t : ℚ) (st : CacheState)
    (hfresh : ∀ e ∈ st, e.file ≠ f) :
    ∃ st2, self.put f d t st = st2 ++ [(⟨f, d, t⟩ : CashedFile)] ∧
      ∀ e ∈ st2, e.file ≠ f := by
  have hany : st.any (fun e => e.file = f) = false := by
    rw [List.any_eq_false]
    intro e he
    simpa using hfresh e he
  unfold Cache.put
  rw [hany]
  simp only [Bool.false_eq_true, if_false]
  exact evict_keeps_last self.capacity ⟨f, d, t⟩ st hfresh

/-! ## Session: `IliasSession.get_ensure_login` -/

/-- Model of an HTTP response as seen by `get_ensure_login`: only the
`is_redirect` flag and an abstract body are relevant. -/
structure Resp where
  is_redirect : Bool
  body : Nat
deriving DecidableEq, Repr

/-- Outcome of one network GET: either a response object, or a
`requests.RequestException` raised by the transport. -/
inductive NetResult where
  | resp (r : Resp)
  | exn
deriving DecidableEq, Repr

/-- Observable events of `get_ensure_login`, in order: outbound GETs and
calls to `login()`. -/
inductive SEvent where
  | getCall
  | loginCall
deriving DecidableEq, Repr

/-- Result of `get_ensure_login`: the returned response, or the raised
`IliasFSError()` (generic session error), or the raised
`IliasFSNetworkError` wrapping a transport exception. -/
inductive GELOutcome where
  | success (r : Resp)
  | sessionError
  | networkError
deriving DecidableEq, Repr

/-- Model of `IliasSession.get_ensure_login`.  The transport's behaviour is
an oracle: `first` is what the initial GET yields, `second` what a retried
GET would yield.  `login()` is modelled as succeeding (its own failure modes
are outside these claims).  Returns the outcome together with the ordered
event trace of GETs and logins. -/
def get_ensure_login (first second : NetResult) : GELOutcome × List SEvent :=
  match first with
  | .exn => (.networkError, [.getCall])
  | .resp r1 =>
      if r1.is_redirect then
        match second with
        | .exn => (.networkError, [.getCall, .loginCall, .getCall])
        | .resp r2 =>
            if r2.is_redirect then (.sessionError, [.getCall, .loginCall, .getCall])
            else (.success r2, [.getCall, .loginCall, .getCall])
      else (.success r1, [.getCall])

/-! ## Size parsing: `File.human2bytes` -/

/-- Model of the unit table built in `File.human2bytes`:
`prefix = {symbols[0]: 1}` then `prefix[s] = 1 << (i + 1) * 10` for the
remaining symbols; lookup raises `KeyError` (here: `none`) for any other
letter group. -/
def unitTable (letters : String) : Option Nat :=
  if letters = "Bytes" then some 1
  else if letters = "KB" then some (1 <<< 10)
  else if letters = "MB" then some (1 <<< 20)
  else if letters = "GB" then some (1 <<< 30)
  else if letters = "TB" then some (1 <<< 40)
  else none

/-- Numeric value of a list of decimal digit characters. -/
def digitsVal (ds : List Char) : Nat :=
  ds.foldl (fun a c => a * 10 + (c.toNat - 48)) 0

/-- Model of Python `float()` applied to `match.group(1)` after commas were
replaced by dots: an optional integer part, an optional single dot, an
optional fractional part; at least one digit overall.  Anything else (empty
string, two dots) raises `ValueError` (here: `none`).  The exact value is
returned as a mantissa together with the count of fractional digits, so the
parsed number is `mantissa / 10 ^ fracDigits` (the floats arising here are
modelled exactly). -/
def parseDecimal (cs : List Char) : Option (Nat × Nat) :=
  let intPart := cs.takeWhile Char.isDigit
  let rest := cs.dropWhile Char.isDigit
  match rest with
  | [] => if cs.isEmpty then none else some (digitsVal intPart, 0)
  | '.' :: frac =>
      if frac.all Char.isDigit ∧ ¬(intPart.isEmpty ∧ frac.isEmpty) then
        some (digitsVal intPart * 10 ^ frac.length + digitsVal frac, frac.length)
      else none
  | _ => none

/-- Model of `File.human2bytes`: the regex
`\s*([0-9,\.]*)\s*([a-zA-Z]*)\s*` anchored at the start captures a run of
digits/commas/dots after optional whitespace (group 1) and a following run
of letters (group 2); commas in group 1 become dots, the number is parsed as
a float, multiplied by the unit factor and truncated to an integer with
`int(...)`.  For the nonnegative values arising here that truncation is the
floor, so `int((m / 10 ^ d) * k)` is the natural-number division
`m * k / 10 ^ d`.  `none` models the exceptions (`ValueError` from `float`,
`KeyError` from the unit table). -/
def human2bytes (s : String) : Option Nat :=
  let cs := s.toList.dropWhile Char.isWhitespace
  let numChars := cs.takeWhile (fun c => c.isDigit || c = ',' || c = '.')
  let rest := (cs.dropWhile (fun c => c.isDigit || c = ',' || c = '.')).dropWhile Char.isWhitespace
  let letters := String.mk (rest.takeWhile Char.isAlpha)
  let numStr := numChars.map (fun c => if c = ',' then '.' else c)
  match parseDecimal numStr, unitTable letters with
  | some (m, d), some k => some (m * k / 10 ^ d)
  | _, _ => none

/-! ## File node construction: `File.__init__` -/

/-- Model of `IliasNode.__init__`'s name sanitisation:
`name.replace("/", "-")`. -/
def sanitize (name : String) : String :=
  String.mk (name.toList.map (fun c => if c = '/' then '-' else c))

/-- Inputs to `File.__init__` taken from the HTML property spans: the
extension text, the size text, and the outcomes of `parse_date` on the
primary (`properties[2]`) and fallback (`properties[3]`) date texts, where
`none` models `parse_date` raising `ValueError`. -/
structure FileProps where
  ext : String
  sizeText : String
  primaryDate : Option ℚ
  fallbackDate : Option ℚ
deriving DecidableEq, Repr

/-- The fields a constructed `File` node carries. -/
structure FileNode where
  name : String
  size : Nat
  time : ℚ
deriving DecidableEq, Repr

/-- Model of `File.__init__`: sanitise the name and append the extension,
parse the size text with `human2bytes`, then set `self.time` from the
primary date, falling back to the secondary date on `ValueError`.  A second
`ValueError` (both dates `none`) is uncaught, so the constructor raises and
no node is produced (`none`); likewise if `human2bytes` raises. -/
def fileInit (name : String) (props : FileProps) : Option FileNode :=
  match human2bytes props.sizeText with
  | none => none
  | some sz =>
      let fullName := sanitize name ++ "." ++ props.ext
      match props.primaryDate with
      | some t => some ⟨fullName, sz, t⟩
      | none =>
          match props.fallbackDate with
          | some t => some ⟨fullName, sz, t⟩
          | none => none

/-! ## Directory refresh: `IliasNode.get_children` -/

/-- One `div.il_ContainerListItem` of the fetched page, as consumed by the
refresh loop: either it has no `a.il_ContainerItemTitle` anchor (the loop
`continue`s past it), or it yields a child with a display name and a url,
whose construction by `IliasNode.create_instance` either succeeds or raises
(`constructFails`, e.g. a `File` with missing size/date markup). -/
inductive ListItem where
  | noTitle
  | item (name : String) (url : String) (constructFails : Bool)
deriving DecidableEq, Repr

/-- Outcome of fetching and souping the node's page: the fetch itself may
raise a network error (outside the `try`), the parse may raise
(`parseFail`), or it yields the list items. -/
inductive FetchOutcome where
  | netFail
  | parseFail
  | page (items : List ListItem)
deriving DecidableEq, Repr

/-- Errors escaping `get_children`: `IliasFSParseError` from the `except`
block, or `IliasFSNetworkError` propagating from `get_ensure_login`. -/
inductive FsErr where
  | parseErr
  | netErr
deriving DecidableEq, Repr

/-- Python dict assignment `d[k] = v`: replaces in place if the key exists,
appends otherwise. -/
def dictInsert {α : Type} : List (String × α) → String → α → List (String × α)
  | [], k, v => [(k, v)]
  | (k1, v1) :: rest, k, v =>
      if k1 = k then (k, v) :: rest else (k1, v1) :: dictInsert rest k v

/-- The refresh loop over the list items: skip items with no title anchor,
otherwise construct the child (the child's key is its sanitised name) and
store it under that key; a construction failure raises out of the loop
(`none`). -/
def buildChildren (acc : List (String × String)) :
    List ListItem → Option (List (String × String))
  | [] => some acc
  | .noTitle :: rest => buildChildren acc rest
  | .item name url fails :: rest =>
      if fails then none
      else buildChildren (dictInsert acc (sanitize name) url) rest

/-- A directory node's refresh-relevant state: `self.__children` (a dict
from child name to child, `None` when never populated or cleared by a
failure) and `self.__last_children_update`.  The update time is modelled as
a plain rational; its value is only read when `children` is not `None`, so
the initial value is irrelevant (the `or` in the staleness test
short-circuits). -/
structure DirState where
  children : Option (List (String × String))
  last_update : ℚ
deriving DecidableEq, Repr

/-- Model of `IliasNode.get_children`.  If the children are absent or stale
(`last_update < now - cache_timeout`), set `last_update` to now, clear the
dict to `{}`, fetch the page, and rebuild the dict from the list items.  A
network failure happens after the dict was cleared but before the `try`, so
it leaves `children = {}`; any exception inside the `try` sets
`children = None` and raises `IliasFSParseError`.  Otherwise the existing
dict is returned unchanged. -/
def get_children (cache_timeout now : ℚ) (st : DirState) (fetch : FetchOutcome) :
    DirState × Except FsErr (List (String × String)) :=
  if st.children.isNone || decide (st.last_update < now - cache_timeout) then
    match fetch with
    | .netFail => (⟨some [], now⟩, .error .netErr)
    | .parseFail => (⟨none, now⟩, .error .parseErr)
    | .page items =>
        match buildChildren [] items with
        | none => (⟨none, now⟩, .error .parseErr)
        | some m => (⟨some m, now⟩, .ok m)
  else
    (st, .ok (st.children.getD []))

/-! ## Path resolution: `IliasFS.__path_to_object` -/

/-- A populated node of the remote tree: display name and children map.  The
children map is the dict built by a completed refresh; `get_children`'s
refresh behaviour is modelled separately above, so resolution here reads the
populated map. -/
inductive PNode where
  | mk (name : String) (children : List (String × PNode))
deriving Repr

/-- Lookup in a children dict (keys are unique, so first match is the
match). -/
def childLookup : List (String × PNode) → String → Option PNode
  | [], _ => none
  | (k, v) :: rest, name => if k = name then some v else childLookup rest name

/-- Model of `IliasNode.get_child_by_name` on a populated node:
`self.__children.get(name)`. -/
def get_child_by_name : PNode → String → Option PNode
  | .mk _ cs, name => childLookup cs name

/-- Split a character list on `/`. -/
def splitSlash : List Char → List Char → List String
  | [], acc => [String.mk acc.reverse]
  | c :: rest, acc =>
      if c = '/' then String.mk acc.reverse :: splitSlash rest []
      else splitSlash rest (c :: acc)

/-- Model of `pathlib.PurePath(path).parts[1:]` for the absolute paths FUSE
passes in: the non-empty path components, with `.` components dropped as
`PurePath` does. -/
def pathParts (path : String) : List String :=
  (splitSlash path.toList []).filter (fun s => s ≠ "" ∧ s ≠ ".")

/-- Model of the loop in `IliasFS.__path_to_object`: walk the segments from
the dashboard; as soon as a lookup yields `None` the loop breaks and `None`
is returned, without touching the remaining segments. -/
def path_to_object : PNode → List String → Option PNode
  | node, [] => some node
  | node, seg :: rest =>
      match get_child_by_name node seg with
      | none => none
      | some child => path_to_object child rest

/-! ## Claims about the cache -/

/-- Claim C4: for every sequence of `put` calls, immediately after each
`put` the total size of all cached payloads is at most the configured
capacity, or exactly one entry remains (a single oversized entry is never
evicted).  Stated for an arbitrary prior cache state, which covers every
state reachable by any sequence of calls. -/
theorem c4_cache_capacity_invariant (self : Cache) (file : Nat) (data : List Nat)
    (now : ℚ) (st : CacheState) :
    Cache.size (self.put file data now st) ≤ self.capacity ∨
      (self.put file data now st).length = 1 := by
  have hput : self.put file data now st =
      evictLoop self.capacity
        ((if st.any (fun e => e.file = file) then listRemove st file else st) ++
          [(⟨file, data, now⟩ : CashedFile)]) := rfl
  rw [hput]
  exact evictLoop_post self.capacity _ (by simp)

/-- Claim C7: a `get` on an entry inserted by `put` more than
`cache_timeout` seconds earlier returns absent rather than the cached
payload.  `hfresh` says the prior state holds no entry for this file
identity, so the aged entry is exactly the one this `put` inserted. -/
theorem c7_cache_ttl (self : Cache) (f : Nat) (d : List Nat) (t now : ℚ)
    (st : CacheState) (hfresh : ∀ e ∈ st, e.file ≠ f)
    (hage : now - t > self.cache_timeout) :
    (Cache.get self f now (Cache.put self f d t st)).1 = none := by
  obtain ⟨st2, heq, hst2⟩ := put_no_prior self f d t st hfresh
  rw [heq]
  unfold Cache.get
  rw [findEntry_last f ⟨f, d, t⟩ rfl st2 hst2]
  simp [hage]

/-- Witness for C7 at a concrete input. -/
theorem c7_cache_ttl_witness :
    (Cache.get ⟨50, 10⟩ 1 20 (Cache.put ⟨50, 10⟩ 1 [7] 0 [])).1 = none :=
  c7_cache_ttl ⟨50, 10⟩ 1 [7] 0 20 [] (by simp) (by norm_num)

/-- Claim C10: the entry list is class-level state shared by every `Cache`
instance (`cache = list()` on the class, never rebound per instance, only
mutated), so a `put` through one instance is observed by a `get` through
any other instance, each applying its own `capacity`/`cache_timeout` to the
single shared list.  In the model the shared list is the `CacheState`
threaded through both instances' methods. -/
theorem c10_cache_shared_state (inst1 inst2 : Cache) (f : Nat) (d : List Nat)
    (t now : ℚ) (st : CacheState) (hfresh : ∀ e ∈ st, e.file ≠ f)
    (hage : ¬(now - t > inst2.cache_timeout)) :
    (Cache.get inst2 f now (inst1.put f d t st)).1 = some d := by
  obtain ⟨st2, heq, hst2⟩ := put_no_prior inst1 f d t st hfresh
  rw [heq]
  unfold Cache.get
  rw [findEntry_last f ⟨f, d, t⟩ rfl st2 hst2]
  simp [hage]

/-- Witness for C10 at a concrete input: the two instances differ in both
settings, and the `get` through the second instance sees the payload the
first instance cached. -/
theorem c10_cache_shared_state_witness :
    (Cache.get ⟨100, 30⟩ 1 20 (Cache.put ⟨50, 10⟩ 1 [7, 8] 0 [])).1 = some [7, 8] :=
  c10_cache_shared_state ⟨50, 10⟩ ⟨100, 30⟩ 1 [7, 8] 0 20 [] (by simp) (by norm_num)

/-- Claim C2 counterexample: the claim says a `get` on an expired entry
leaves the entry present in the entry sequence (masked, not removed).  In
the code `get` pops the entry from the list before the age check and does
not re-append it when it is expired, so the entry is removed: starting from
a one-entry cache (entry inserted at time 0, timeout 10, `get` at time 20)
the resulting entry list is empty. -/
theorem c2_counterexample :
    Cache.get ⟨50, 10⟩ 0 20 [⟨0, [1, 2, 3], 0⟩] = (none, []) := by
  norm_num [Cache.get, findEntry]

/-- Claim C2 (amended): a `get` on an entry whose age exceeds
`cache_timeout` returns absent and REMOVES the entry from the shared entry
list (the list shrinks by exactly that entry); the entry is purged by `get`
itself, not merely masked. -/
theorem c2_amended_get_purges_expired (self : Cache) (f : Nat) (now : ℚ)
    (st : CacheState) (obj : CashedFile) (rest : CacheState)
    (hfind : findEntry st f = some (obj, rest))
    (hexp : now - obj.time > self.cache_timeout) :
    Cache.get self f now st = (none, rest) ∧ st.length = rest.length + 1 := by
  constructor
  · unfold Cache.get
    rw [hfind]
    simp [hexp]
  · exact findEntry_length f st obj rest hfind

/-- Witness for the amended C2 at a concrete input. -/
theorem c2_amended_witness :
    Cache.get ⟨50, 10⟩ 0 20 [⟨0, [1, 2], 5⟩] = (none, []) ∧
      ([(⟨0, [1, 2], 5⟩ : CashedFile)]).length = ([] : CacheState).length + 1 :=
  c2_amended_get_purges_expired ⟨50, 10⟩ 0 20 [⟨0, [1, 2], 5⟩] ⟨0, [1, 2], 5⟩ []
    rfl (by norm_num)

/-! ## Claim about the session -/

/-- Claim C5: when the initial GET returns a redirect response, exactly one
`login()` call occurs, between the first GET and the single retried GET;
and when the retried GET is again a redirect, the generic session error
(`IliasFSError`) is raised with no further login attempt — the event trace
is still exactly GET, login, GET. -/
theorem c5_redirect_single_relogin (r1 : Resp) (second : NetResult)
    (h : r1.is_redirect = true) :
    (get_ensure_login (.resp r1) second).2 =
        [.getCall, .loginCall, .getCall] ∧
      (∀ r2 : Resp, second = .resp r2 → r2.is_redirect = true →
        (get_ensure_login (.resp r1) second).1 = .sessionError) := by
  constructor
  · cases second with
    | exn => simp [get_ensure_login, h]
    | resp r2 =>
        by_cases hr : r2.is_redirect <;> simp [get_ensure_login, h, hr]
  · intro r2 hs hr2
    subst hs
    simp [get_ensure_login, h, hr2]

/-- Witness for C5 at a concrete input: both GETs redirect. -/
theorem c5_witness :
    (get_ensure_login (.resp ⟨true, 0⟩) (.resp ⟨true, 1⟩)).2 =
        [.getCall, .loginCall, .getCall] ∧
      (get_ensure_login (.resp ⟨true, 0⟩) (.resp ⟨true, 1⟩)).1 = .sessionError :=
  ⟨(c5_redirect_single_relogin ⟨true, 0⟩ (.resp ⟨true, 1⟩) rfl).1,
   (c5_redirect_single_relogin ⟨true, 0⟩ (.resp ⟨true, 1⟩) rfl).2 ⟨true, 1⟩ rfl rfl⟩

/-! ## Claim about path resolution -/

lemma path_to_object_append (root : PNode) (xs ys : List String) :
    path_to_object root (xs ++ ys) =
      (path_to_object root xs).bind (fun n => path_to_object n ys) := by
  induction xs generalizing root with
  | nil => simp [path_to_object]
  | cons seg rest ih =>
      rw [List.cons_append]
      simp only [path_to_object]
      cases get_child_by_name root seg with
      | none => simp
      | some child => simpa using ih child

/-- Claim C6: resolving the root path `/` yields the dashboard node (the
parts list of `/` is empty, so the loop never runs), and whenever the walk
has reached some node whose children contain no entry for the next segment,
resolution returns not-found no matter what the remaining segments are
(the loop breaks without looking at them). -/
theorem c6_path_resolution (dashboard n : PNode) (pre rest : List String)
    (seg : String) (hpre : path_to_object dashboard pre = some n)
    (hmiss : get_child_by_name n seg = none) :
    path_to_object dashboard (pathParts "/") = some dashboard ∧
      path_to_object dashboard (pre ++ seg :: rest) = none := by
  constructor
  · have hparts : pathParts "/" = [] := rfl
    rw [hparts]
    rfl
  · rw [path_to_object_append, hpre]
    simp [path_to_object, hmiss]

/-- A leaf course node for the C6 witness. -/
def courseA : PNode := .mk "CourseA" []

/-- A dashboard with the single child `CourseA` for the C6 witness. -/
def dashEx : PNode := .mk "Dashboard" [("CourseA", courseA)]

/-- Witness for C6: `/` resolves to the dashboard, and
`/CourseA/Missing/Anything` resolves to not-found because `CourseA` has no
child `Missing`, with `Anything` never inspected. -/
theorem c6_witness :
    path_to_object dashEx (pathParts "/") = some dashEx ∧
      path_to_object dashEx (["CourseA"] ++ "Missing" :: ["Anything"]) = none :=
  c6_path_resolution dashEx courseA ["CourseA"] ["Anything"] "Missing" rfl rfl

/-! ## Claim about size parsing -/

/-- Claim C9: `human2bytes` maps `"2,5 MB"` to `2621440` (2.5 × 1024 × 1024
rounded down) and `"512 Bytes"` to `512`, and each successive unit of the
table is worth 1024 times the previous one. -/
theorem c9_size_parsing :
    human2bytes "2,5 MB" = some 2621440 ∧
      human2bytes "512 Bytes" = some 512 ∧
      unitTable "Bytes" = some 1 ∧
      unitTable "KB" = some (1024 * 1) ∧
      unitTable "MB" = some (1024 * (1024 * 1)) ∧
      unitTable "GB" = some (1024 * (1024 * (1024 * 1))) ∧
      unitTable "TB" = some (1024 * (1024 * (1024 * (1024 * 1)))) := by
  decide

/-! ## Claim about file-node construction -/

/-- Claim C8 counterexample: a file list entry with a perfectly good size
text but date texts that fail both the primary and the fallback parse.  The
claim says the node is still created with timestamp zero; in the code the
second `ValueError` is raised outside any handler, so `File.__init__`
raises and no node is produced at all. -/
theorem c8_counterexample :
    fileInit "doc" ⟨"pdf", "512 Bytes", none, none⟩ = none := by decide

/-- Claim C8 (amended): when both the primary and the fallback date parse
fail, the failure IS fatal to the node: the `ValueError` propagates out of
`File.__init__` and no File node is created — there is no zero-timestamp
default anywhere in the constructor. -/
theorem c8_amended_both_date_failures_fatal (name ext sizeText : String) :
    fileInit name ⟨ext, sizeText, none, none⟩ = none := by
  unfold fileInit
  cases human2bytes sizeText <;> rfl

/-! ## Claims about the directory refresh -/

/-- Claim C1 counterexample: a directory node with previously cached
children `{"A": ...}` goes stale and the refresh's parse fails.  The claim
says the previous children remain intact; in the code `self.__children` was
reset to `{}` before the fetch and is set to `None` in the `except` block,
so after the failed refresh the children map is absent, not the previous
map. -/
theorem c1_counterexample :
    get_children 10 100 ⟨some [("A", "u")], 0⟩ .parseFail =
      (⟨none, 100⟩, .error .parseErr) := by
  norm_num [get_children]

/-- Claim C1 (amended): when a refresh is triggered (children absent or
stale) and the parse of the fetched page fails, `get_children` raises
`ParseError`, CLEARS the children map to absent (`None`) and stamps
`last_update` with the current time; the previous children are discarded
rather than left intact, and a subsequent lookup re-attempts the fetch
instead of observing them. -/
theorem c1_amended_children_cleared_on_parse_error (cache_timeout now : ℚ)
    (st : DirState)
    (hstale : st.children = none ∨ st.last_update < now - cache_timeout) :
    get_children cache_timeout now st .parseFail =
      (⟨none, now⟩, .error .parseErr) := by
  rcases hstale with h | h
  · simp [get_children, h]
  · simp [get_children, h]

/-- Witness for the amended C1 at a concrete input. -/
theorem c1_amended_witness :
    get_children 5 50 ⟨some [("B", "v")], 1⟩ .parseFail =
      (⟨none, 50⟩, .error .parseErr) :=
  c1_amended_children_cleared_on_parse_error 5 50 ⟨some [("B", "v")], 1⟩
    (Or.inr (by norm_num))

lemma buildChildren_bad (nm url : String) :
    ∀ (items : List ListItem) (acc : List (String × String)),
      ListItem.item nm url true ∈ items → buildChildren acc items = none := by
  intro items
  induction items with
  | nil => intro acc h; cases h
  | cons it rest ih =>
      intro acc h
      rcases List.mem_cons.mp h with heq | hmem
      · rw [← heq]
        simp [buildChildren]
      · cases it with
        | noTitle => simpa [buildChildren] using ih acc hmem
        | item n u f =>
            by_cases hf : f
            · simp [buildChildren, hf]
            · simpa [buildChildren, hf] using
                ih (dictInsert acc (sanitize n) u) hmem

/-- Claim C3 counterexample: a stale node refreshes from a page with three
children where only the middle child's construction raises.  The claim says
that child alone is dropped and the refresh succeeds with the other two; in
the code the loop body runs inside the single `try`, so the exception
aborts the whole refresh: `ParseError` is raised and the children map is
cleared to absent — children `A` and `C` are lost too. -/
theorem c3_counterexample :
    get_children 10 0 ⟨none, 0⟩
        (.page [.item "A" "ua" false, .item "B" "ub" true, .item "C" "uc" false]) =
      (⟨none, 0⟩, .error .parseErr) := by
  norm_num [get_children, buildChildren, dictInsert]

/-- Claim C3 (amended): during a refresh, a failure while constructing any
individual child node aborts the ENTIRE refresh: `get_children` raises
`ParseError` and clears the children map to absent, retaining no child at
all.  (Only list items lacking a title anchor are skipped harmlessly; a
construction failure is not confined to its child.) -/
theorem c3_amended_child_failure_fatal (cache_timeout now : ℚ) (st : DirState)
    (items : List ListItem)
    (hstale : st.children = none ∨ st.last_update < now - cache_timeout)
    (hbad : ∃ nm url, ListItem.item nm url true ∈ items) :
    get_children cache_timeout now st (.page items) =
      (⟨none, now⟩, .error .parseErr) := by
  obtain ⟨nm, url, hmem⟩ := hbad
  have hbuild : buildChildren [] items = none := buildChildren_bad nm url items [] hmem
  rcases hstale with h | h
  · simp [get_children, h, hbuild]
  · simp [get_children, h, hbuild]

/-- Witness for the amended C3 at a concrete input. -/
theorem c3_amended_witness :
    get_children 5 50 ⟨some [("X", "x")], 1⟩
        (.page [.noTitle, .item "B" "ub" true]) =
      (⟨none, 50⟩, .error .parseErr) :=
  c3_amended_child_failure_fatal 5 50 ⟨some [("X", "x")], 1⟩
    [.noTitle, .item "B" "ub" true] (Or.inr (by norm_num))
    ⟨"B", "ub", by simp⟩
